import Mathlib

/-!
Verification development for the deepcut DJ-queue bot
(src/deepcutBotTestFairTurns.js together with src/queue.js; the same
checkQueueEnabled / updateQueueSizeEnforcement logic also appears in
src/deepcutBot.js).

The JavaScript classes are shallowly embedded as pure Lean functions over an
explicit state record.  JS Map objects become association lists with
insertion-order update semantics, JS Set objects become duplicate-free lists,
and every side effect (chat message, private message, deck eviction, Redis
publication, timer arming) is recorded as an element of an Action list that
each transition returns next to the new state.  Timestamps are naturals
(milliseconds, as produced by a monotone Date.now()).
-/

namespace Deepcut

/-- One outward side effect of the bot, in emission order. -/
inductive Action where
  | speak (msg : String)
  | pm (msg : String) (userId : String)
  | remDj (userId : String)
  | publishQueue (payload : String)
  | scheduleFill
  | scheduleFairTimeout
  | cancelFairTimeout
  | scheduleCooldownNotice (name : String)
  | scheduleGraceCheck (name : String)
  deriving DecidableEq, Repr

/-! ### JS collection primitives -/

/-- JS Map.get keyed by strings: first (and only) binding for the key. -/
def mapGet {α : Type} (m : List (String × α)) (k : String) : Option α :=
  (m.find? (fun p => p.1 = k)).map (fun p => p.2)

/-- JS Map.has. -/
def mapHas {α : Type} (m : List (String × α)) (k : String) : Bool :=
  (m.find? (fun p => p.1 = k)).isSome

/-- JS Map.set: update in place if the key exists, else append (insertion order). -/
def mapSet {α : Type} (m : List (String × α)) (k : String) (v : α) :
    List (String × α) :=
  if mapHas m k then
    m.map (fun p => if p.1 = k then (k, v) else p)
  else
    m ++ [(k, v)]

/-- JS Map.delete. -/
def mapDel {α : Type} (m : List (String × α)) (k : String) : List (String × α) :=
  m.filter (fun p => p.1 ≠ k)

/-- JS Set.add (no duplicates, insertion order). -/
def setAdd (s : List String) (x : String) : List String :=
  if s.contains x then s else s ++ [x]

/-- JS Set.delete. -/
def setDel (s : List String) (x : String) : List String :=
  s.filter (fun y => y ≠ x)

/-- JS Set.has / Array.includes. -/
def setHas (s : List String) (x : String) : Bool :=
  s.contains x

/-- Queue.prototype.remove from src/queue.js: splice out the first occurrence
of the element, if present. -/
def qRemove (l : List String) (x : String) : List String :=
  match l with
  | [] => []
  | a :: rest => if a = x then rest else a :: qRemove rest x

/-! ### Configuration (Config.get in the source) -/

def QUEUE_SIZE_THRESHOLD : Nat := 6
def QUEUE_FULL_SIZE : Nat := 5
def DJ_WAIT_TIME : Nat := 60000
def MIN_SONG_DURATION : Nat := 30000
def REFRESH_GRACE_PERIOD : Nat := 30000
def ERROR_COOLDOWN : Nat := 5000

/-- Utils.isAdmin: exact match against the configured admin allow-list. -/
def isAdmin (adminUsers : List String) (username : String) : Bool :=
  adminUsers.contains username

/-! ### Room data (the occupancy snapshot delivered by bot.roomInfo) -/

structure User where
  userid : String
  name : String
  deriving DecidableEq, Repr

/-- The fields of the roomInfo payload that the queue logic reads:
data.room.metadata.djs (slot occupant ids, leftmost first), data.users, and
data.room.metadata.current_song identity fields. -/
structure RoomData where
  djs : List String
  users : List User
  songDjName : Option String
  songDjId : Option String
  deriving DecidableEq, Repr

/-- users.find on a userid. -/
def findUser (users : List User) (id : String) : Option User :=
  users.find? (fun u => u.userid = id)

/-- Map slot occupant ids to display names, dropping unknown ids
(currentDjIds.map(... user ? user.name : null).filter(Boolean)). -/
def deckNames (rd : RoomData) : List String :=
  (rd.djs.map (fun id => (findUser rd.users id).map (fun u => u.name))).filterMap id

/-! ### Bot state (StateManager) -/

structure RemovalInfo where
  userId : String
  reason : String
  deriving DecidableEq, Repr

structure BotState where
  djQueue : List String
  recentlyPlayedDJs : List (String × Nat)
  djsToRemoveAfterSong : List (String × RemovalInfo)
  recentlyLeftUsers : List (String × Nat)
  djSongCounts : List (String × Nat)
  songStartTimes : List (String × (Nat × Nat))
  queueEnabled : Bool
  queueLocked : Bool
  enforceOneSongPerDJ : Bool
  lastErrorTime : Nat
  moderatorSkippedSongs : List String
  lastSkipData : List (String × String)
  scheduledForRemoval : List String
  fairTurnInProgress : Bool
  currentNextDJ : Option String
  spotAvailableStartTime : Option Nat
  deriving DecidableEq, Repr

/-- StateManager.reset: the freshly constructed state. -/
def initState : BotState where
  djQueue := []
  recentlyPlayedDJs := []
  djsToRemoveAfterSong := []
  recentlyLeftUsers := []
  djSongCounts := []
  songStartTimes := []
  queueEnabled := false
  queueLocked := false
  enforceOneSongPerDJ := false
  lastErrorTime := 0
  moderatorSkippedSongs := []
  lastSkipData := []
  scheduledForRemoval := []
  fairTurnInProgress := false
  currentNextDJ := none
  spotAvailableStartTime := none

/-! ### StateManager operations -/

/-- StateManager.addToQueue: enqueue plus a zeroed song count. -/
def stAddToQueue (s : BotState) (username : String) : BotState :=
  { s with
    djQueue := s.djQueue ++ [username]
    djSongCounts := mapSet s.djSongCounts username 0 }

/-- StateManager.removeFromQueue. -/
def stRemoveFromQueue (s : BotState) (username : String) : BotState :=
  { s with
    djQueue := qRemove s.djQueue username
    djSongCounts := mapDel s.djSongCounts username }

/-- StateManager.clearQueue. -/
def stClearQueue (s : BotState) : BotState :=
  { s with djQueue := [], djSongCounts := [], recentlyPlayedDJs := [] }

/-- StateManager.moveToEndOfQueue: rotate to the back, but only when the
performer is present and the queue holds more than one member. -/
def moveToEndOfQueue (s : BotState) (username : String) : BotState :=
  if s.djQueue.contains username ∧ s.djQueue.length > 1 then
    { s with djQueue := qRemove s.djQueue username ++ [username] }
  else s

/-- StateManager.incrementSongCount; the new count is also returned. -/
def incrementSongCount (s : BotState) (username : String) : BotState × Nat :=
  let current := (mapGet s.djSongCounts username).getD 0
  ({ s with djSongCounts := mapSet s.djSongCounts username (current + 1) },
    current + 1)

/-- StateManager.incrementSongCountSkipped: count the turn; with the
isModeratorSkip flag the DJ is additionally marked as moderator-skipped. -/
def incrementSongCountSkipped (s : BotState) (username : String)
    (isModeratorSkip : Bool) : BotState × Nat :=
  let current := (mapGet s.djSongCounts username).getD 0
  let s1 := { s with djSongCounts := mapSet s.djSongCounts username (current + 1) }
  if isModeratorSkip then
    ({ s1 with moderatorSkippedSongs := setAdd s1.moderatorSkippedSongs username },
      current + 1)
  else (s1, current + 1)

/-- StateManager.resetSongCount: zero the count and drop the skip mark and
any scheduled removal for the DJ. -/
def resetSongCount (s : BotState) (username : String) : BotState :=
  { s with
    djSongCounts := mapSet s.djSongCounts username 0
    moderatorSkippedSongs := setDel s.moderatorSkippedSongs username
    scheduledForRemoval := setDel s.scheduledForRemoval username }

/-- StateManager.scheduleForRemoval (the reason only feeds logging). -/
def scheduleForRemoval (s : BotState) (username : String) : BotState :=
  { s with scheduledForRemoval := setAdd s.scheduledForRemoval username }

/-- StateManager.isScheduledForRemoval. -/
def isScheduledForRemoval (s : BotState) (username : String) : Bool :=
  setHas s.scheduledForRemoval username

/-- StateManager.clearScheduledRemoval. -/
def clearScheduledRemoval (s : BotState) (username : String) : BotState :=
  { s with scheduledForRemoval := setDel s.scheduledForRemoval username }

/-- StateManager.addToRecentlyPlayed (timestamp defaults to Date.now()). -/
def addToRecentlyPlayed (s : BotState) (username : String) (now : Nat) : BotState :=
  { s with recentlyPlayedDJs := mapSet s.recentlyPlayedDJs username now }

/-- StateManager.removeFromRecentlyPlayed. -/
def removeFromRecentlyPlayed (s : BotState) (username : String) : BotState :=
  { s with recentlyPlayedDJs := mapDel s.recentlyPlayedDJs username }

/-- StateManager.isInCooldown: false when no entry; an expired entry is
deleted as a side effect and false is returned; otherwise the number of
remaining seconds, Math.ceil((DJ_WAIT_TIME - elapsed) / 1000).  Timestamps
are assumed monotone (an entry is never in the future). -/
def isInCooldown (s : BotState) (username : String) (now : Nat) :
    BotState × Option Nat :=
  match mapGet s.recentlyPlayedDJs username with
  | none => (s, none)
  | some timestamp =>
    let elapsed := now - timestamp
    if elapsed ≥ DJ_WAIT_TIME then
      ({ s with recentlyPlayedDJs := mapDel s.recentlyPlayedDJs username }, none)
    else
      (s, some ((DJ_WAIT_TIME - elapsed + 999) / 1000))

/-- StateManager.trackSongStart with no expected duration: the minimum
plausible duration is MIN_SONG_DURATION. -/
def trackSongStart (s : BotState) (djName : String) (now : Nat) : BotState :=
  { s with songStartTimes := mapSet s.songStartTimes djName (now, MIN_SONG_DURATION) }

/-- StateManager.wasSongSkipped: elapsed time below the recorded minimum
duration, false when the start was never tracked. -/
def wasSongSkipped (s : BotState) (djName : String) (now : Nat) : Bool :=
  match mapGet s.songStartTimes djName with
  | none => false
  | some (startTime, minDuration) => now - startTime < minDuration

/-- StateManager.cleanupSongTracking. -/
def cleanupSongTracking (s : BotState) (djName : String) : BotState :=
  { s with songStartTimes := mapDel s.songStartTimes djName }

/-- StateManager.detectSkipType: with room data whose users include at least
one admin the skip defaults to intentional moderation, otherwise (and with no
room data) to unintended. -/
def detectSkipType (adminUsers : List String) (roomData : Option RoomData) :
    String :=
  match roomData with
  | some rd =>
    let admins := rd.users.filter (fun u => isAdmin adminUsers u.name)
    if admins.length > 0 then "intentional_moderator" else "unintended"
  | none => "unintended"

/-- Queue.prototype.print: comma-join of the members, with a sentinel string
for the empty queue. -/
def qPrint (q : List String) : String :=
  if q.isEmpty then "Queue is empty" else String.intercalate ", " q

/-- The queueArray idiom of the source: print().split(COMMA-SPACE) guarded by
truthiness of print().  Since the sentinel string is truthy, an empty queue
yields a one-element array holding the sentinel; a non-empty queue yields its
members back (names are assumed not to contain a comma-space pair). -/
def queueArrayOf (q : List String) : List String :=
  if q.isEmpty then ["Queue is empty"] else q

/-! ### Deck synchronization (scheduled-removal execution at the anchor) -/

/-- The position scan inside shouldRemoveDJsBasedOnCurrentSong: the first
index of currentDjIds whose resolved user name equals the playing DJ. -/
def findPlayingPos (users : List User) (target : String) :
    List String → Nat → Option Nat
  | [], _ => none
  | id :: rest, i =>
    match findUser users id with
    | some u =>
      if u.name = target then some i else findPlayingPos users target rest (i + 1)
    | none => findPlayingPos users target rest (i + 1)

/-- StateManager.shouldRemoveDJsBasedOnCurrentSong: only when enforcement is
on, a song with a named DJ is playing, the queue array is non-empty, and
the playing DJ occupies deck position 1 (index 0, leftmost). -/
def shouldRemoveDJsBasedOnCurrentSong (s : BotState)
    (currentSongDjName : Option String) (queueArray : List String)
    (rd : RoomData) : Bool :=
  match currentSongDjName with
  | none => false
  | some playing =>
    if ¬ s.enforceOneSongPerDJ ∨ queueArray.length = 0 then false
    else findPlayingPos rd.users playing rd.djs 0 = some 0

/-- The per-occupant loop of getDJsToRemoveFromDecks: collect every scheduled
occupant other than the playing DJ into the removal list; the playing DJ, if
scheduled, has the flag cleared in place instead.  Returns the removal list
and the updated scheduled set. -/
def removalLoop (playing : String) (sched : List String) :
    List String → List String × List String
  | [] => ([], sched)
  | n :: rest =>
    if setHas sched n ∧ n ≠ playing then
      let r := removalLoop playing sched rest
      (n :: r.1, r.2)
    else if n = playing ∧ setHas sched n then
      removalLoop playing (setDel sched n) rest
    else
      removalLoop playing sched rest

/-- StateManager.getDJsToRemoveFromDecks: when the anchor condition holds,
execute the scheduled removals (excluding the playing DJ, whose flag is
cleared) and clear every executed flag. -/
def getDJsToRemoveFromDecks (s : BotState) (currentDJNames : List String)
    (queueArray : List String) (currentSongDjName : Option String)
    (rd : RoomData) : BotState × List String :=
  if ¬ s.enforceOneSongPerDJ then (s, [])
  else if ¬ shouldRemoveDJsBasedOnCurrentSong s currentSongDjName queueArray rd then
    (s, [])
  else
    match currentSongDjName with
    | none => (s, [])
    | some playing =>
      let r := removalLoop playing s.scheduledForRemoval currentDJNames
      let sched2 := r.1.foldl setDel r.2
      ({ s with scheduledForRemoval := sched2 }, r.1)

/-! ### Fair Turn System -/

/-- StateManager.isSpotReservedForQueue: a fair turn is in progress with a
designated (truthy) next DJ. -/
def isSpotReservedForQueue (s : BotState) : Bool :=
  s.fairTurnInProgress ∧ s.currentNextDJ.isSome

/-- The reservation read off the state: the Fair-Turn Reservation is the
single optional currentNextDJ field while fairTurnInProgress holds. -/
def reservedFor (s : BotState) : Option String :=
  if s.fairTurnInProgress then s.currentNextDJ else none

/-- StateManager.djTookSpot: the designated DJ claims the spot and the
reservation is torn down (with a delayed refill check); any other claimant,
waitlisted or not, is reported illegitimate with the state untouched. -/
def djTookSpot (s : BotState) (djName : String) : Bool × BotState × List Action :=
  if ¬ s.fairTurnInProgress then (false, s, [])
  else if s.currentNextDJ = some djName then
    (true,
      { s with
        fairTurnInProgress := false
        currentNextDJ := none
        spotAvailableStartTime := none },
      [Action.speak ("@" ++ djName ++ " has taken their queue spot on the decks!"),
       Action.cancelFairTimeout, Action.scheduleFill])
  else
    -- both the in-queue and the not-in-queue claimant fall through to false
    -- with no state change (the queueArray inspection only feeds logging)
    (false, s, [])

/-! ### CommandHandler helpers -/

/-- CommandHandler.checkQueueEnabled: with the system disabled, speak the
availability notice at most once per ERROR_COOLDOWN window (the timestamp is
shared across all users), and report false; otherwise report true. -/
def checkQueueEnabled (s : BotState) (now : Nat) :
    Bool × BotState × List Action :=
  if ¬ s.queueEnabled then
    if now - s.lastErrorTime > ERROR_COOLDOWN then
      (false, { s with lastErrorTime := now },
        [Action.speak "/q /a /r is only available when the live DJ queue is enabled by Admins"])
    else (false, s, [])
  else (true, s, [])

/-- CommandHandler.updateQueueSizeEnforcement: recompute strict mode from the
queue size; announce the policy change exactly when the flag flips while the
queue system is enabled. -/
def updateQueueSizeEnforcement (s : BotState) : BotState × List Action :=
  let previous := s.enforceOneSongPerDJ
  let enforce := s.djQueue.length ≥ QUEUE_SIZE_THRESHOLD
  let s1 := { s with enforceOneSongPerDJ := enforce }
  if previous ≠ enforce ∧ s.queueEnabled then
    if enforce then
      (s1, [Action.speak "Queue has reached 6+ people. Each DJ will now be limited to ONE SONG PER TURN."])
    else
      (s1, [Action.speak "Queue is now under 6 people. DJs may play multiple songs per turn."])
  else (s1, [])

/-- CommandHandler.checkQueueFullStatus. -/
def checkQueueFullStatus (s : BotState) : List Action :=
  if s.djQueue.length = QUEUE_FULL_SIZE then
    [Action.speak "DJ queue is now FULL (5 DJs). New users should type /a to join the queue and wait for an open spot."]
  else []

/-- CommandHandler.updateQueuePublication. -/
def updateQueuePublication (s : BotState) : Action :=
  Action.publishQueue (qPrint s.djQueue)

/-- CommandHandler.addToQueue (the /a user command). -/
def addToQueueCmd (adminUsers : List String) (s : BotState) (username : String)
    (now : Nat) : BotState × List Action :=
  let c := checkQueueEnabled s now
  let s1 := c.2.1
  let a1 := c.2.2
  if ¬ c.1 then (s1, a1)
  else if s1.queueLocked ∧ ¬ isAdmin adminUsers username then
    (s1, a1 ++ [Action.speak ("@" ++ username ++ " The queue is currently locked. Only admins can modify it.")])
  else if s1.djQueue.contains username then
    (s1, a1 ++ [Action.speak ("You are already in the live DJ queue. @" ++ username)])
  else
    let s2 := stAddToQueue s1 username
    let msg :=
      if s2.djQueue.length ≥ QUEUE_SIZE_THRESHOLD then
        "Next in line is: @" ++ username
      else "Hop up! @" ++ username
    let r := updateQueueSizeEnforcement s2
    (r.1, a1 ++ [Action.speak msg, updateQueuePublication s2] ++ r.2 ++
      checkQueueFullStatus r.1)

/-- CommandHandler.disableQueue (admin command, after the already-disabled
guard): turn the system off, drop strict mode, clear all cooldowns, and
publish the disabled sentinel.  The Waitlist itself is not touched. -/
def disableQueueCmd (s : BotState) : BotState × List Action :=
  if ¬ s.queueEnabled then
    (s, [Action.speak "Live DJ queue system is already disabled."])
  else
    ({ s with
        queueEnabled := false
        enforceOneSongPerDJ := false
        recentlyPlayedDJs := [] },
      [Action.speak "Live DJ queue system is now DISABLED.",
       Action.publishQueue "disabled"])

/-! ### Utils.buildQueueOrder and queue reordering -/

/-- Array.prototype.indexOf. -/
def idxOf : List String → String → Option Nat
  | [], _ => none
  | a :: rest, x => if a = x then some 0 else (idxOf rest x).map (fun i => i + 1)

/-- Utils.buildQueueOrder: the deck occupants in rotation order starting from
the main (currently playing) DJ and wrapping left to right; plain deck order
when no playing DJ can be located. -/
def buildQueueOrder (currentDjIds : List String) (users : List User)
    (songDjId songDjName : Option String) : List String :=
  let djsOnDecks :=
    (currentDjIds.map (fun id => (findUser users id).map (fun u => u.name))).filterMap id
  match songDjId, songDjName with
  | some djid, some mainDJ =>
    (match idxOf currentDjIds djid with
     | some mainIdx =>
       if djsOnDecks.contains mainDJ then
         (List.range' 1 (currentDjIds.length - 1)).foldl
           (fun acc i =>
             match currentDjIds[(mainIdx + i) % currentDjIds.length]? with
             | some nextId =>
               match findUser users nextId with
               | some u => if acc.contains u.name then acc else acc ++ [u.name]
               | none => acc
             | none => acc)
           [mainDJ]
       else djsOnDecks
     | none => djsOnDecks)
  | _, _ => djsOnDecks

/-- EventManager.reorderQueueForDeckPosition: rebuild the queue as deck
rotation order followed by the waiting (off-deck) members in their previous
relative order, preserving song counts. -/
def reorderQueueForDeckPosition (s : BotState) (djsOnDecks : List String)
    (currentDjIds : List String) (users : List User)
    (songDjId songDjName : Option String) : BotState × List Action :=
  let preserved := s.djSongCounts
  let queueArray := queueArrayOf s.djQueue
  let usersNotOnDecks := queueArray.filter (fun n => ¬ djsOnDecks.contains n)
  let s1 := { s with djQueue := [], djSongCounts := [] }
  let queueOrder := buildQueueOrder currentDjIds users songDjId songDjName
  let add := fun (st : BotState) (n : String) =>
    { st with
      djQueue := st.djQueue ++ [n]
      djSongCounts := mapSet st.djSongCounts n ((mapGet preserved n).getD 0) }
  let s2 := queueOrder.foldl add s1
  let s3 := usersNotOnDecks.foldl add s2
  let r := updateQueueSizeEnforcement s3
  (r.1, [updateQueuePublication s3] ++ r.2)

/-- EventManager.handleDJReordering (the tail of handleAddDJ, after the
roomInfo round trip). -/
def handleDJReordering (s : BotState) (user : User) (rd : RoomData) :
    BotState × List Action :=
  let djsOnDecks := deckNames rd
  if djsOnDecks.length > 1 then
    let r :=
      reorderQueueForDeckPosition s djsOnDecks rd.djs rd.users rd.songDjId rd.songDjName
    (r.1, r.2 ++
      [Action.speak (user.name ++ " joined the decks! Queue reordered: " ++ qPrint r.1.djQueue)])
  else if ¬ s.djQueue.contains user.name then
    let s1 := stAddToQueue s user.name
    let r := updateQueueSizeEnforcement s1
    (r.1, [updateQueuePublication s1] ++ r.2 ++ checkQueueFullStatus r.1 ++
      [Action.pm "You have been automatically added to the DJ queue!" user.userid,
       Action.speak (user.name ++ " joined the decks! Current queue: " ++ qPrint s1.djQueue)])
  else
    (s, [Action.speak (user.name ++ " joined the decks! Current queue: " ++ qPrint s.djQueue)])

/-! ### EventManager.handleAddDJ -/

/-- Math.ceil(a / b) on integers for positive b. -/
def jsCeilDiv (a : Int) (b : Int) : Int := -((-a).fdiv b)

/-- The part of handleAddDJ after the reservation arbitration: the cooldown
gate (evict and notify a claimant still cooling down) and then the deck-order
reconciliation. -/
def handleAddDJRest (s : BotState) (acc : List Action)
    (user : User) (now : Nat) (rd : RoomData) : BotState × List Action :=
  let c := isInCooldown s user.name now
  let s1 := c.1
  match c.2 with
  | some t =>
    (s1, acc ++
      [Action.remDj user.userid,
       Action.pm ("Wait " ++ toString t ++ " more seconds. Your cooldown persists regardless of queue size changes.")
         user.userid])
  | none =>
    let r := handleDJReordering s1 user rd
    (r.1, acc ++ r.2)

/-- EventManager.handleAddDJ: while a Fair-Turn Reservation is active, any
claimant other than the reserved DJ is evicted back off the slot and the
remaining reservation time is announced with the reservation left intact;
otherwise the claim proceeds to the cooldown gate and deck reconciliation. -/
def handleAddDJ (s : BotState) (user : User)
    (now : Nat) (rd : RoomData) : BotState × List Action :=
  if ¬ s.queueEnabled then (s, [])
  else if isSpotReservedForQueue s then
    let r := djTookSpot s user.name
    let s1 := r.2.1
    let a1 := r.2.2
    if ¬ r.1 then
      let remainingTime : Int :=
        match s1.spotAvailableStartTime with
        | some t => jsCeilDiv (60000 - ((now : Int) - (t : Int))) 1000
        | none => 60
      (s1, a1 ++
        [Action.remDj user.userid,
         Action.speak ("@" ++ user.name ++
           " the deck spot is currently reserved for queue members. @" ++
           (s1.currentNextDJ.getD "null") ++ " has the spot for " ++
           toString remainingTime ++ " more seconds.")])
    else handleAddDJRest s1 a1 user now rd
  else handleAddDJRest s [] user now rd

/-! ### EventManager.handleEndSong -/

/-- EventManager.addDJToCooldown: start the 1-minute cooldown now and arm the
expiry-notice timer. -/
def addDJToCooldown (s : BotState) (username : String) (now : Nat) :
    BotState × List Action :=
  (addToRecentlyPlayed s username now, [Action.scheduleCooldownNotice username])

/-- EventManager.handleMarkedRemoval: a DJ marked after a leave-queue or
admin-removal command is scheduled for removal at the anchor instead of being
evicted immediately. -/
def handleMarkedRemoval (s : BotState) (currentDJ : String) :
    BotState × List Action :=
  let removalInfo := mapGet s.djsToRemoveAfterSong currentDJ
  let s1 := { s with djsToRemoveAfterSong := mapDel s.djsToRemoveAfterSong currentDJ }
  match removalInfo with
  | some info =>
    if info.reason = "admin_removal" then
      (scheduleForRemoval s1 currentDJ,
        [Action.speak ("@" ++ currentDJ ++ " removed from queue by admin. Scheduled for removal at leftmost deck position.")])
    else
      (scheduleForRemoval s1 currentDJ,
        [Action.speak ("@" ++ currentDJ ++ " left the queue. Scheduled for removal at leftmost deck position.")])
  | none => (s1, [])

/-- EventManager.handleEndSong: rotation, skip classification and the strict
mode turn-completion policy, run against the roomInfo snapshot rd.  The
hasCurrentSong flag mirrors the truthiness guard on the event payload. -/
def handleEndSong (adminUsers : List String) (s : BotState) (now : Nat)
    (hasCurrentSong : Bool) (currentDJ currentDJId : String) (rd : RoomData) :
    BotState × List Action :=
  if ¬ s.queueEnabled ∨ ¬ hasCurrentSong then (s, [])
  else
    let songSkipped := wasSongSkipped s currentDJ now
    let s1 := cleanupSongTracking s currentDJ
    if mapHas s1.djsToRemoveAfterSong currentDJ then
      handleMarkedRemoval s1 currentDJ
    else
      let djStillOnDecks := rd.djs.contains currentDJId
      if ¬ djStillOnDecks then (s1, [])
      else if ¬ s1.djQueue.contains currentDJ then
        (s1, [Action.remDj currentDJId,
          Action.speak ("@" ++ currentDJ ++ " has been removed from the decks. Type /a to join the DJ queue.")])
      else
        let s2 := moveToEndOfQueue s1 currentDJ
        let pubAct := updateQueuePublication s2
        if songSkipped then
          let skipType := detectSkipType adminUsers (some rd)
          if s2.enforceOneSongPerDJ then
            if skipType = "intentional_moderator" then
              let s3 := (incrementSongCountSkipped s2 currentDJ false).1
              let s4 := scheduleForRemoval s3 currentDJ
              (s4, [pubAct, Action.speak (currentDJ ++
                " song was intentionally skipped by moderator. Moved to end of queue and scheduled for removal at leftmost deck position (counts as their turn). Current rotation: "
                ++ qPrint s4.djQueue)])
            else if skipType = "self" then
              let s3 := (incrementSongCountSkipped s2 currentDJ false).1
              let s4 := scheduleForRemoval s3 currentDJ
              (s4, [pubAct, Action.speak (currentDJ ++
                " skipped their own song. Moved to end of queue and scheduled for removal at leftmost deck position. Current rotation: "
                ++ qPrint s4.djQueue)])
            else
              let s3 := (incrementSongCountSkipped s2 currentDJ true).1
              (s3, [pubAct, Action.speak (currentDJ ++
                " song was skipped (likely unintended). Moved to end of queue but remains on decks (no penalty for technical issues). Current rotation: "
                ++ qPrint s3.djQueue)])
          else
            (s2, [pubAct, Action.speak (currentDJ ++
              " moved to end of queue. Current rotation: " ++ qPrint s2.djQueue)])
        else if s2.enforceOneSongPerDJ then
          let inc := incrementSongCount s2 currentDJ
          if inc.2 ≥ 1 then
            let s4 := resetSongCount inc.1 currentDJ
            let s5 := scheduleForRemoval s4 currentDJ
            let cdr := addDJToCooldown s5 currentDJ now
            (cdr.1, [pubAct, Action.speak ("@" ++ currentDJ ++
              " has played their song (queue has 6+ people). Moved to end of queue and scheduled for removal at leftmost deck position.")]
              ++ cdr.2)
          else (inc.1, [pubAct])
        else
          let s3 := resetSongCount s2 currentDJ
          (s3, [pubAct, Action.speak (currentDJ ++
            " moved to end of queue. Current rotation: " ++ qPrint s3.djQueue)])

/-! ### Grace-period tracking -/

/-- EventManager.checkIfRefresh: a rejoin within the grace window cancels the
departure record and is treated as a refresh; a late rejoin merely drops the
stale record. -/
def checkIfRefresh (s : BotState) (username : String) (now : Nat) :
    BotState × Bool :=
  match mapGet s.recentlyLeftUsers username with
  | some leftTime =>
    if now - leftTime ≤ REFRESH_GRACE_PERIOD then
      ({ s with recentlyLeftUsers := mapDel s.recentlyLeftUsers username }, true)
    else
      ({ s with recentlyLeftUsers := mapDel s.recentlyLeftUsers username }, false)
  | none => (s, false)

/-- EventManager.handleUserLeave (for a non-bot user): clean tracking, record
the departure and arm the delayed removal check when the queue runs. -/
def handleUserLeave (s : BotState) (user : User) (now : Nat) :
    BotState × List Action :=
  let s1 := { s with djsToRemoveAfterSong := mapDel s.djsToRemoveAfterSong user.name }
  let s2 := cleanupSongTracking s1 user.name
  let leftMsg := Action.speak ("@" ++ user.name ++ " has left the room.")
  if ¬ s2.queueEnabled then (s2, [leftMsg])
  else
    ({ s2 with recentlyLeftUsers := mapSet s2.recentlyLeftUsers user.name now },
      [leftMsg, Action.scheduleGraceCheck user.name])

/-- EventManager.buildWelcomeMessage (frame and spacing elided). -/
def buildWelcomeMessage (adminUsers : List String) (s : BotState)
    (username : String) (isRefresh : Bool) : String :=
  let base := if isRefresh then "Welcome back! " else "Welcome! "
  if s.queueEnabled then
    let intro :=
      if isRefresh then "As a reminder, this room uses a DJ queue system. "
      else "This room uses a DJ queue system. "
    let joinHint :=
      if s.djQueue.length ≥ QUEUE_FULL_SIZE then
        "The queue is currently full. Type /a to join the queue and wait for an open spot. "
      else "Type /a to join the DJ queue or click Play Music to hop on the decks. "
    let strictNote :=
      if s.enforceOneSongPerDJ then
        "Queue has 6+ people so DJs are limited to one song per turn with a 1-minute wait between turns. "
      else ""
    let cmds :=
      if isAdmin adminUsers username then
        "Use /q to see the current queue, /usercommands for user commands, and /admincommands for admin commands."
      else "Use /q to see the current queue and /usercommands for all available commands."
    base ++ intro ++ joinHint ++ strictNote ++ cmds
  else
    base ++ "Thanks for joining us! Click Play Music to hop on the decks and start DJing. " ++
      (if isAdmin adminUsers username then
        "Use /usercommands for user and /admincommands for admin commands."
      else "Use /usercommands to see available commands.")

/-- EventManager.handleUserJoin together with sendWelcomeMessage (for a
non-bot user): classify the rejoin and greet; the Waitlist is never
mutated here. -/
def handleUserJoin (adminUsers : List String) (s : BotState) (user : User)
    (now : Nat) : BotState × List Action :=
  let c := checkIfRefresh s user.name now
  let s1 := c.1
  let isRefresh := c.2
  let welcome := Action.speak
    (if isRefresh then "Welcome back, @" ++ user.name ++ "!"
     else "Welcome to the room, @" ++ user.name ++ "!")
  if isRefresh ∧ s1.queueEnabled ∧ s1.djQueue.contains user.name then
    (s1, [welcome, Action.pm "Welcome back! You remain in the DJ queue." user.userid])
  else
    (s1, [welcome,
      Action.pm (buildWelcomeMessage adminUsers s1 user.name isRefresh) user.userid])

/-- EventManager.handleDelayedRemovalFromQueue: the grace timer firing.  The
departure is confirmed only when the record is still present, the full window
has elapsed and the room still has audience; the record is dropped either
way once the window has elapsed. -/
def handleDelayedRemovalFromQueue (s : BotState) (username : String) (now : Nat)
    (rd : RoomData) : BotState × List Action :=
  match mapGet s.recentlyLeftUsers username with
  | none => (s, [])
  | some leftTime =>
    if now - leftTime ≥ REFRESH_GRACE_PERIOD then
      let audienceCount := rd.users.length - rd.djs.length
      let r :=
        if audienceCount ≥ 1 ∧ s.djQueue.contains username then
          let sA := removeFromRecentlyPlayed (stRemoveFromQueue s username) username
          let rB := updateQueueSizeEnforcement sA
          (rB.1, [Action.speak ("@" ++ username ++
              " was removed from the DJ queue after the 30-second grace period."),
            updateQueuePublication sA] ++ rB.2)
        else (s, ([] : List Action))
      ({ r.1 with recentlyLeftUsers := mapDel r.1.recentlyLeftUsers username }, r.2)
    else (s, [])

/-! ## Claims -/

/-- C10: while the queue system is disabled, a /q, /a or /r command is
answered with the availability notice exactly when more than the 5-second
error cooldown has elapsed since the shared last-error timestamp (in
particular, only if at least 5 seconds have elapsed), and otherwise produces
no reply; in either case nothing but the shared timestamp changes; and a
second command arriving within 5 seconds of a sent notice is silently
dropped no matter which user sent it. -/
theorem checkQueueEnabled_disabled_rate_limit (s : BotState) (now1 now2 : Nat)
    (hdis : s.queueEnabled = false) :
    ((now1 - s.lastErrorTime > ERROR_COOLDOWN →
        checkQueueEnabled s now1 =
          (false, { s with lastErrorTime := now1 },
            [Action.speak "/q /a /r is only available when the live DJ queue is enabled by Admins"])) ∧
      (¬ now1 - s.lastErrorTime > ERROR_COOLDOWN →
        checkQueueEnabled s now1 = (false, s, []))) ∧
    (now1 - s.lastErrorTime > ERROR_COOLDOWN → now2 - now1 ≤ ERROR_COOLDOWN →
      checkQueueEnabled (checkQueueEnabled s now1).2.1 now2 =
        (false, (checkQueueEnabled s now1).2.1, [])) ∧
    (∀ adminUsers u, addToQueueCmd adminUsers s u now1 =
      ((checkQueueEnabled s now1).2.1, (checkQueueEnabled s now1).2.2)) := by
  refine ⟨⟨?_, ?_⟩, ?_, ?_⟩
  · intro h
    simp [checkQueueEnabled, hdis, h]
  · intro h
    simp [checkQueueEnabled, hdis, h]
  · intro h1 h2
    simp only [checkQueueEnabled, hdis, Bool.false_eq_true, not_false_eq_true,
      if_true, if_pos h1]
    have : ¬ now2 - now1 > ERROR_COOLDOWN := by omega
    simp [this]
  · intro adminUsers u
    have hfalse : (checkQueueEnabled s now1).1 = false := by
      simp only [checkQueueEnabled, hdis, Bool.false_eq_true, not_false_eq_true, if_true]
      split <;> rfl
    simp only [addToQueueCmd]
    rw [hfalse]
    simp

/-- Witness for C10 at a concrete disabled state and concrete times. -/
theorem checkQueueEnabled_disabled_rate_limit_witness :
    initState.queueEnabled = false ∧
    checkQueueEnabled initState 6000 =
      (false, { initState with lastErrorTime := 6000 },
        [Action.speak "/q /a /r is only available when the live DJ queue is enabled by Admins"]) ∧
    checkQueueEnabled (checkQueueEnabled initState 6000).2.1 9000 =
      (false, (checkQueueEnabled initState 6000).2.1, []) := by
  refine ⟨rfl, ?_, ?_⟩
  · exact (checkQueueEnabled_disabled_rate_limit initState 6000 9000 rfl).1.1 (by decide)
  · exact (checkQueueEnabled_disabled_rate_limit initState 6000 9000 rfl).2.1
      (by decide) (by decide)

/-! ### Shared helper lemmas -/

theorem checkQueueEnabled_djQueue (s : BotState) (now : Nat) :
    (checkQueueEnabled s now).2.1.djQueue = s.djQueue := by
  simp only [checkQueueEnabled]
  split <;> (try split) <;> rfl

theorem checkQueueEnabled_queueLocked (s : BotState) (now : Nat) :
    (checkQueueEnabled s now).2.1.queueLocked = s.queueLocked := by
  simp only [checkQueueEnabled]
  split <;> (try split) <;> rfl

theorem updateQueueSizeEnforcement_djQueue (s : BotState) :
    (updateQueueSizeEnforcement s).1.djQueue = s.djQueue := by
  simp only [updateQueueSizeEnforcement]
  split <;> (try split) <;> rfl

/-- Natural-subtraction-friendly strict division step used for the cooldown
countdown: adding a full divisor to the numerator strictly increases the
quotient. -/
theorem div1000_strict {a b : Nat} (h : b + 1000 ≤ a) : b / 1000 < a / 1000 := by
  have h1 : (b + 1000) / 1000 ≤ a / 1000 := Nat.div_le_div_right h
  rw [Nat.add_div_right _ (by norm_num)] at h1
  omega

/-- Concrete six-member states used to exercise the mode controller. -/
def sixState : BotState :=
  { initState with queueEnabled := true, djQueue := ["a", "b", "c", "d", "e", "f"] }

def sixStateDisabled : BotState :=
  { initState with djQueue := ["a", "b", "c", "d", "e", "f"] }

/-- C5 (corrected): after updateQueueSizeEnforcement runs, strict mode holds
exactly when the Waitlist size is at least the threshold of 6; a threshold
crossing emits exactly one room-wide policy notification provided the queue
system is enabled (a crossing while the system is disabled emits nothing);
recomputing with no flag change emits nothing, and an immediate second
recomputation always emits nothing (idempotence). -/
theorem updateQueueSizeEnforcement_mode (s : BotState) :
    ((updateQueueSizeEnforcement s).1.enforceOneSongPerDJ =
      decide (s.djQueue.length ≥ QUEUE_SIZE_THRESHOLD)) ∧
    (s.queueEnabled = true →
      s.enforceOneSongPerDJ ≠ decide (s.djQueue.length ≥ QUEUE_SIZE_THRESHOLD) →
      ∃ msg, (updateQueueSizeEnforcement s).2 = [Action.speak msg]) ∧
    (s.enforceOneSongPerDJ = decide (s.djQueue.length ≥ QUEUE_SIZE_THRESHOLD) →
      (updateQueueSizeEnforcement s).2 = []) ∧
    (updateQueueSizeEnforcement (updateQueueSizeEnforcement s).1).2 = [] := by
  refine ⟨?_, ?_, ?_, ?_⟩
  · simp only [updateQueueSizeEnforcement]
    split <;> (try split) <;> rfl
  · intro hen hne
    simp only [updateQueueSizeEnforcement]
    rw [if_pos ⟨hne, hen⟩]
    split
    · exact ⟨_, rfl⟩
    · exact ⟨_, rfl⟩
  · intro heq
    simp only [updateQueueSizeEnforcement]
    rw [if_neg]
    intro hc
    exact hc.1 heq
  · have h1 : (updateQueueSizeEnforcement s).1.enforceOneSongPerDJ =
        decide ((updateQueueSizeEnforcement s).1.djQueue.length ≥ QUEUE_SIZE_THRESHOLD) := by
      rw [updateQueueSizeEnforcement_djQueue]
      simp only [updateQueueSizeEnforcement]
      split <;> (try split) <;> rfl
    generalize hT : (updateQueueSizeEnforcement s).1 = t at h1
    simp only [updateQueueSizeEnforcement]
    rw [if_neg]
    intro hc
    exact hc.1 h1

/-- Witness for C5 at a concrete enabled state crossing the threshold. -/
theorem updateQueueSizeEnforcement_mode_witness :
    sixState.queueEnabled = true ∧
    ∃ msg, (updateQueueSizeEnforcement sixState).2 = [Action.speak msg] :=
  ⟨rfl, (updateQueueSizeEnforcement_mode sixState).2.1 rfl (by decide)⟩

/-- C5 counterexample: with the queue system disabled, an admin-driven
threshold crossing (reachable through the targeted add command, which skips
the enabled check) emits no notification at all, contradicting the claim that
a crossing always emits exactly one. -/
theorem updateQueueSizeEnforcement_silent_crossing_cx :
    (sixStateDisabled.queueEnabled = false ∧
      sixStateDisabled.enforceOneSongPerDJ = false ∧
      sixStateDisabled.djQueue.length ≥ 6) ∧
    (updateQueueSizeEnforcement sixStateDisabled).1.enforceOneSongPerDJ = true ∧
    (updateQueueSizeEnforcement sixStateDisabled).2 = [] := by
  refine ⟨⟨rfl, rfl, by decide⟩, ?_, ?_⟩ <;> rfl

/-- Concrete enabled one-member state. -/
def aliceState : BotState :=
  { initState with queueEnabled := true, djQueue := ["alice"] }

/-- C7 (corrected): disabling the queue system does not clear the Waitlist;
it turns the system off, resets strict mode, clears all cooldowns, announces
the change and publishes the disabled sentinel, leaving the Waitlist
contents untouched. -/
theorem disableQueueCmd_keeps_waitlist (s : BotState)
    (hen : s.queueEnabled = true) :
    (disableQueueCmd s).1.djQueue = s.djQueue ∧
    (disableQueueCmd s).1.queueEnabled = false ∧
    (disableQueueCmd s).1.enforceOneSongPerDJ = false ∧
    (disableQueueCmd s).1.recentlyPlayedDJs = [] ∧
    (disableQueueCmd s).2 =
      [Action.speak "Live DJ queue system is now DISABLED.",
        Action.publishQueue "disabled"] := by
  simp only [disableQueueCmd]
  rw [if_neg (by simp [hen])]
  exact ⟨rfl, rfl, rfl, rfl, rfl⟩

/-- Witness for C7 at a concrete enabled state. -/
theorem disableQueueCmd_keeps_waitlist_witness :
    aliceState.queueEnabled = true ∧
    (disableQueueCmd aliceState).1.djQueue = ["alice"] :=
  ⟨rfl, (disableQueueCmd_keeps_waitlist aliceState rfl).1⟩

/-- C7 counterexample: a Waitlist member survives the disable operation, so
the claim that the Waitlist is empty afterwards is false. -/
theorem disableQueueCmd_not_cleared_cx :
    aliceState.queueEnabled = true ∧
    (disableQueueCmd aliceState).1.djQueue ≠ [] :=
  ⟨rfl, by decide⟩

/-- The auto-clear of an expired cooldown entry really removes it. -/
theorem find?_mapDel {α : Type} (m : List (String × α)) (k : String) :
    (mapDel m k).find? (fun p => p.1 = k) = none := by
  rw [List.find?_eq_none]
  intro x hx
  simp only [mapDel, List.mem_filter] at hx
  simpa using hx.2

theorem mapGet_mapDel {α : Type} (m : List (String × α)) (k : String) :
    mapGet (mapDel m k) k = none := by
  simp [mapGet, find?_mapDel]

theorem mapHas_mapDel {α : Type} (m : List (String × α)) (k : String) :
    mapHas (mapDel m k) k = false := by
  simp [mapHas, find?_mapDel]

/-- C9 (corrected): between two successive queries at nondecreasing times the
remaining-seconds value is nonincreasing, and strictly decreasing as soon as
at least one full second separates the queries (two queries inside the same
second can return equal values); once a query has returned false the entry
has been auto-cleared and every later query returns false until a new
cooldown is started. -/
theorem isInCooldown_countdown (s : BotState) (u : String) (t now1 now2 : Nat)
    (hget : mapGet s.recentlyPlayedDJs u = some t)
    (ht : t ≤ now1) (h12 : now1 ≤ now2) :
    (∀ v1 v2, (isInCooldown s u now1).2 = some v1 →
      (isInCooldown (isInCooldown s u now1).1 u now2).2 = some v2 → v2 ≤ v1) ∧
    (now1 + 1000 ≤ now2 → ∀ v1 v2, (isInCooldown s u now1).2 = some v1 →
      (isInCooldown (isInCooldown s u now1).1 u now2).2 = some v2 → v2 < v1) ∧
    ((isInCooldown s u now1).2 = none →
      (isInCooldown (isInCooldown s u now1).1 u now2).2 = none) ∧
    ((isInCooldown s u now1).2 = none →
      mapHas (isInCooldown s u now1).1.recentlyPlayedDJs u = false) := by
  by_cases h1exp : now1 - t ≥ DJ_WAIT_TIME
  · have hr1 : isInCooldown s u now1 =
        ({ s with recentlyPlayedDJs := mapDel s.recentlyPlayedDJs u }, none) := by
      simp [isInCooldown, hget, h1exp]
    refine ⟨?_, ?_, ?_, ?_⟩
    · intro v1 v2 hv1 _
      rw [hr1] at hv1
      cases hv1
    · intro _ v1 v2 hv1 _
      rw [hr1] at hv1
      cases hv1
    · intro _
      rw [hr1]
      simp [isInCooldown, mapGet_mapDel]
    · intro _
      rw [hr1]
      exact mapHas_mapDel s.recentlyPlayedDJs u
  · have hr1 : isInCooldown s u now1 =
        (s, some ((DJ_WAIT_TIME - (now1 - t) + 999) / 1000)) := by
      simp [isInCooldown, hget, h1exp]
    by_cases h2exp : now2 - t ≥ DJ_WAIT_TIME
    · have hr2 : (isInCooldown (isInCooldown s u now1).1 u now2).2 = none := by
        rw [hr1]
        simp [isInCooldown, hget, h2exp]
      refine ⟨?_, ?_, ?_, ?_⟩
      · intro v1 v2 _ hv2
        rw [hr2] at hv2
        cases hv2
      · intro _ v1 v2 _ hv2
        rw [hr2] at hv2
        cases hv2
      · intro hv1
        rw [hr1] at hv1
        cases hv1
      · intro hv1
        rw [hr1] at hv1
        cases hv1
    · have hr2 : (isInCooldown (isInCooldown s u now1).1 u now2).2 =
          some ((DJ_WAIT_TIME - (now2 - t) + 999) / 1000) := by
        rw [hr1]
        simp [isInCooldown, hget, h2exp]
      refine ⟨?_, ?_, ?_, ?_⟩
      · intro v1 v2 hv1 hv2
        rw [hr1] at hv1
        rw [hr2] at hv2
        cases hv1
        cases hv2
        exact Nat.div_le_div_right (by omega)
      · intro hgap v1 v2 hv1 hv2
        rw [hr1] at hv1
        rw [hr2] at hv2
        cases hv1
        cases hv2
        refine div1000_strict ?_
        have hW : DJ_WAIT_TIME = 60000 := rfl
        omega
      · intro hv1
        rw [hr1] at hv1
        cases hv1
      · intro hv1
        rw [hr1] at hv1
        cases hv1

/-- Concrete cooldown state: the alice entry was written at time 0. -/
def cooldownState : BotState :=
  { initState with recentlyPlayedDJs := [("alice", 0)] }

/-- Witness for C9: strict decrease across queries a full second apart. -/
theorem isInCooldown_countdown_witness :
    mapGet cooldownState.recentlyPlayedDJs "alice" = some 0 ∧ (59 : Nat) < 60 :=
  ⟨rfl,
    (isInCooldown_countdown cooldownState "alice" 0 100 1100 rfl (by decide)
      (by decide)).2.1 (by decide) 60 59 (by decide) (by decide)⟩

/-- C9 counterexample: two queries 100 milliseconds apart both report 60
remaining seconds, so the reported value is not strictly decreasing on
successive queries as claimed. -/
theorem isInCooldown_not_strictly_decreasing_cx :
    (100 : Nat) < 200 ∧
    (isInCooldown cooldownState "alice" 100).2 = some 60 ∧
    (isInCooldown (isInCooldown cooldownState "alice" 100).1 "alice" 200).2 =
      some 60 := by
  refine ⟨by norm_num, by decide, by decide⟩

/-- A single /a join either leaves the queue unchanged or appends an absent
identity at the back. -/
theorem addToQueueCmd_queue_cases (adminUsers : List String) (s : BotState)
    (u : String) (now : Nat) :
    (addToQueueCmd adminUsers s u now).1.djQueue = s.djQueue ∨
    ((addToQueueCmd adminUsers s u now).1.djQueue = s.djQueue ++ [u] ∧
      s.djQueue.contains u = false) := by
  have hq := checkQueueEnabled_djQueue s now
  simp only [addToQueueCmd]
  split
  · exact Or.inl hq
  split
  · exact Or.inl hq
  split
  · exact Or.inl hq
  · rename_i h3
    refine Or.inr ⟨?_, ?_⟩
    · rw [updateQueueSizeEnforcement_djQueue]
      simp only [stAddToQueue]
      rw [hq]
    · rw [← hq]
      simpa using h3

/-- C4: a join for an identity already in the Waitlist leaves the Waitlist
unchanged, and any sequence of join operations starting from a
duplicate-free Waitlist keeps it duplicate-free. -/
theorem join_no_duplicates (adminUsers : List String) :
    (∀ (s : BotState) (u : String) (now : Nat), s.djQueue.contains u = true →
      (addToQueueCmd adminUsers s u now).1.djQueue = s.djQueue) ∧
    (∀ (s : BotState) (joins : List (String × Nat)), s.djQueue.Nodup →
      (joins.foldl (fun st p => (addToQueueCmd adminUsers st p.1 p.2).1)
        s).djQueue.Nodup) := by
  constructor
  · intro s u now h
    rcases addToQueueCmd_queue_cases adminUsers s u now with hc | ⟨_, hfalse⟩
    · exact hc
    · rw [h] at hfalse
      cases hfalse
  · intro s joins
    induction joins generalizing s with
    | nil => intro h; exact h
    | cons p rest ih =>
      intro h
      apply ih
      rcases addToQueueCmd_queue_cases adminUsers s p.1 p.2 with hc | ⟨happ, habs⟩
      · rw [hc]; exact h
      · rw [happ]
        have hnm : p.1 ∉ s.djQueue := by
          intro hm
          have hx : s.djQueue.contains p.1 = true := List.elem_iff.2 hm
          rw [hx] at habs
          cases habs
        simp [List.nodup_append, h, hnm]

/-- Concrete state for the C4 witness. -/
def joinState : BotState :=
  { initState with queueEnabled := true, djQueue := ["alice"] }

/-- Witness for C4: a duplicate join is a no-op and a join sequence with a
repeat stays duplicate-free. -/
theorem join_no_duplicates_witness :
    (joinState.djQueue.contains "alice" = true ∧
      (addToQueueCmd [] joinState "alice" 0).1.djQueue = joinState.djQueue) ∧
    (([("alice", 0), ("bob", 0), ("alice", 0)] : List (String × Nat)).foldl
      (fun st p => (addToQueueCmd [] st p.1 p.2).1) joinState).djQueue.Nodup :=
  ⟨⟨by decide, (join_no_duplicates []).1 joinState "alice" 0 (by decide)⟩,
    (join_no_duplicates []).2 joinState _ (by decide)⟩

/-- C2: the Fair-Turn Reservation is a singleton (it is the one optional
currentNextDJ field read while fairTurnInProgress holds), and while a
reservation is active for identity d every claimant with a different name,
waitlisted or not, is evicted back off the slot, the remaining reservation
time is announced, and the reservation holder, its start timestamp (hence
its expiry) and the Waitlist are all unchanged. -/
theorem reservation_exclusive (s : BotState) (user : User) (now : Nat)
    (rd : RoomData) (d : String)
    (hen : s.queueEnabled = true)
    (hft : s.fairTurnInProgress = true)
    (hres : s.currentNextDJ = some d)
    (hne : user.name ≠ d) :
    (∀ x y, reservedFor s = some x → reservedFor s = some y → x = y) ∧
    (handleAddDJ s user now rd).1 = s ∧
    (∃ rt : Int, (handleAddDJ s user now rd).2 =
      [Action.remDj user.userid,
       Action.speak ("@" ++ user.name ++
         " the deck spot is currently reserved for queue members. @" ++ d ++
         " has the spot for " ++ toString rt ++ " more seconds.")]) := by
  have hne2 : d ≠ user.name := fun h => hne h.symm
  have htook : djTookSpot s user.name = (false, s, []) := by
    simp [djTookSpot, hft, hres, hne2]
  refine ⟨?_, ?_⟩
  · intro x y hx hy
    rw [hx] at hy
    exact Option.some_injective _ hy
  · have hmain : handleAddDJ s user now rd =
        (s, [Action.remDj user.userid,
          Action.speak ("@" ++ user.name ++
            " the deck spot is currently reserved for queue members. @" ++ d ++
            " has the spot for " ++
            toString (match s.spotAvailableStartTime with
              | some t => jsCeilDiv (60000 - ((now : Int) - (t : Int))) 1000
              | none => (60 : Int)) ++ " more seconds.")]) := by
      simp only [handleAddDJ, isSpotReservedForQueue, htook, hen, hft, hres]
      simp [hres]
    rw [hmain]
    exact ⟨rfl, ⟨_, rfl⟩⟩

/-- Concrete reservation scenario: dave holds the reservation, erin (also
waitlisted) tries to claim. -/
def reservationState : BotState :=
  { initState with
    queueEnabled := true
    djQueue := ["dave", "erin"]
    fairTurnInProgress := true
    currentNextDJ := some "dave"
    spotAvailableStartTime := some 1000 }

def erinUser : User := { userid := "u-erin", name := "erin" }

def emptyRoom : RoomData := { djs := [], users := [], songDjName := none, songDjId := none }

/-- Witness for C2: erin's queue-cutting claim is reverted and dave's
reservation survives untouched. -/
theorem reservation_exclusive_witness :
    reservationState.queueEnabled = true ∧
    (handleAddDJ reservationState erinUser 31000 emptyRoom).1 = reservationState :=
  ⟨rfl,
    (reservation_exclusive reservationState erinUser 31000 emptyRoom "dave" rfl rfl
      rfl (by decide)).2.1⟩

/-- Updating an existing key rewrites its first (unique) binding. -/
theorem find?_replace {α : Type} (m : List (String × α)) (k : String) (v : α)
    (h : mapHas m k = true) :
    (m.map (fun p => if p.1 = k then (k, v) else p)).find? (fun p => p.1 = k) =
      some (k, v) := by
  induction m with
  | nil => cases h
  | cons p rest ih =>
    by_cases hp : p.1 = k
    · simp [List.find?, hp]
    · have hr : mapHas rest k = true := by
        simpa [mapHas, List.find?, hp] using h
      simp [List.find?, hp, ih hr]

theorem find?_of_not_has {α : Type} (m : List (String × α)) (k : String)
    (h : mapHas m k = false) : m.find? (fun p => p.1 = k) = none := by
  cases hf : m.find? (fun p => p.1 = k) with
  | none => rfl
  | some p =>
    simp only [mapHas, hf] at h
    cases h

/-- JS Map.set followed by Map.get on the same key reads the written value. -/
theorem mapGet_mapSet_self {α : Type} (m : List (String × α)) (k : String)
    (v : α) : mapGet (mapSet m k v) k = some v := by
  by_cases h : mapHas m k = true
  · simp [mapGet, mapSet, h, find?_replace m k v h]
  · have hf : mapHas m k = false := by
      cases hh : mapHas m k
      · rfl
      · exact absurd hh h
    simp [mapGet, mapSet, hf, List.find?_append, find?_of_not_has m k hf,
      List.find?]

/-- C8: a departure followed by a rejoin of the same identity within the
30-second grace window leaves the Waitlist exactly as it was, the grace
timer then fires without any effect or message (in particular no removal
notification), the departure step only announces the departure and arms the
grace timer, and the rejoin step only greets and sends one private
message. -/
theorem grace_refresh_keeps_membership (adminUsers : List String) (s : BotState)
    (user : User) (t0 t1 t2 : Nat) (rd : RoomData)
    (hen : s.queueEnabled = true)
    (_h01 : t0 ≤ t1) (hwin : t1 - t0 ≤ REFRESH_GRACE_PERIOD)
    (_h2 : t0 + REFRESH_GRACE_PERIOD ≤ t2) :
    (handleDelayedRemovalFromQueue
        (handleUserJoin adminUsers (handleUserLeave s user t0).1 user t1).1
        user.name t2 rd).1.djQueue = s.djQueue ∧
    (handleDelayedRemovalFromQueue
        (handleUserJoin adminUsers (handleUserLeave s user t0).1 user t1).1
        user.name t2 rd).2 = [] ∧
    (handleUserLeave s user t0).2 =
      [Action.speak ("@" ++ user.name ++ " has left the room."),
        Action.scheduleGraceCheck user.name] ∧
    (∃ pmMsg,
      (handleUserJoin adminUsers (handleUserLeave s user t0).1 user t1).2 =
        [Action.speak ("Welcome back, @" ++ user.name ++ "!"),
          Action.pm pmMsg user.userid]) := by
  have hleave : handleUserLeave s user t0 =
      ({ s with
          djsToRemoveAfterSong := mapDel s.djsToRemoveAfterSong user.name
          songStartTimes := mapDel s.songStartTimes user.name
          recentlyLeftUsers := mapSet s.recentlyLeftUsers user.name t0 },
        [Action.speak ("@" ++ user.name ++ " has left the room."),
          Action.scheduleGraceCheck user.name]) := by
    simp [handleUserLeave, cleanupSongTracking, hen]
  have hrefresh : checkIfRefresh (handleUserLeave s user t0).1 user.name t1 =
      ({ (handleUserLeave s user t0).1 with
          recentlyLeftUsers :=
            mapDel (handleUserLeave s user t0).1.recentlyLeftUsers user.name },
        true) := by
    rw [hleave]
    simp [checkIfRefresh, mapGet_mapSet_self, hwin]
  have hjoinState : (handleUserJoin adminUsers (handleUserLeave s user t0).1 user t1).1 =
      (checkIfRefresh (handleUserLeave s user t0).1 user.name t1).1 := by
    simp only [handleUserJoin]
    split <;> rfl
  have hjoinGet :
      mapGet (handleUserJoin adminUsers (handleUserLeave s user t0).1 user
        t1).1.recentlyLeftUsers user.name = none := by
    rw [hjoinState, hrefresh]
    exact mapGet_mapDel _ _
  have hdel : handleDelayedRemovalFromQueue
      (handleUserJoin adminUsers (handleUserLeave s user t0).1 user t1).1
      user.name t2 rd =
      ((handleUserJoin adminUsers (handleUserLeave s user t0).1 user t1).1,
        []) := by
    simp only [handleDelayedRemovalFromQueue, hjoinGet]
  refine ⟨?_, ?_, ?_, ?_⟩
  · rw [hdel, hjoinState, hrefresh, hleave]
  · rw [hdel]
  · rw [hleave]
  · simp only [handleUserJoin, hrefresh]
    split
    · exact ⟨_, rfl⟩
    · exact ⟨_, rfl⟩

/-- Concrete refresh scenario for the C8 witness. -/
def graceState : BotState :=
  { initState with queueEnabled := true, djQueue := ["alice", "bob"] }

def aliceUser : User := { userid := "u-alice", name := "alice" }

/-- Witness for C8: alice leaves at 1000ms, rejoins at 11000ms, the timer
fires at 31000ms; her Waitlist membership is untouched and the timer step is
silent. -/
theorem grace_refresh_keeps_membership_witness :
    graceState.queueEnabled = true ∧
    (handleDelayedRemovalFromQueue
        (handleUserJoin [] (handleUserLeave graceState aliceUser 1000).1 aliceUser
          11000).1 aliceUser.name 31000 emptyRoom).1.djQueue = graceState.djQueue :=
  ⟨rfl,
    (grace_refresh_keeps_membership [] graceState aliceUser 1000 11000 31000
      emptyRoom rfl (by decide) (by decide) (by decide)).1⟩

/-! ### Queue rotation lemmas -/

theorem length_qRemove_of_mem {l : List String} {x : String} (h : x ∈ l) :
    (qRemove l x).length = l.length - 1 := by
  induction l with
  | nil => cases h
  | cons a rest ih =>
    by_cases ha : a = x
    · simp [qRemove, ha]
    · have hx : x ∈ rest := by
        cases h with
        | head => exact absurd rfl ha
        | tail _ h => exact h
      have hlen : 1 ≤ rest.length := List.length_pos.mpr (List.ne_nil_of_mem hx)
      simp only [qRemove, ha, if_false, List.length_cons, ih hx]
      omega

theorem not_mem_qRemove_of_nodup {l : List String} {x : String}
    (h : l.Nodup) : x ∉ qRemove l x := by
  induction l with
  | nil => simp [qRemove]
  | cons a rest ih =>
    by_cases ha : a = x
    · simpa [qRemove, ha] using (List.nodup_cons.mp h).1.elim ∘ fun hm => ha ▸ hm
    · simp only [qRemove, ha, if_false]
      intro hm
      cases hm with
      | head => exact ha rfl
      | tail _ hm => exact ih (List.nodup_cons.mp h).2 hm

/-- The result Waitlist of handleEndSong on the main path (enabled, unmarked
performer still on decks and in the queue) is exactly the rotated queue. -/
theorem handleEndSong_queue (adminUsers : List String) (s : BotState)
    (now : Nat) (currentDJ currentDJId : String) (rd : RoomData)
    (hen : s.queueEnabled = true)
    (hmark : mapHas s.djsToRemoveAfterSong currentDJ = false)
    (hdeck : rd.djs.contains currentDJId = true)
    (hinq : s.djQueue.contains currentDJ = true) :
    (handleEndSong adminUsers s now true currentDJ currentDJId rd).1.djQueue =
      (moveToEndOfQueue (cleanupSongTracking s currentDJ) currentDJ).djQueue := by
  have hdeckMem : currentDJId ∈ rd.djs := List.elem_iff.mp hdeck
  have hinqMem : currentDJ ∈ s.djQueue := List.elem_iff.mp hinq
  simp only [handleEndSong]
  rw [if_neg (by simp [hen])]
  rw [if_neg (by simp [cleanupSongTracking, hmark])]
  rw [if_neg (by simp [hdeckMem])]
  rw [if_neg (by simp [cleanupSongTracking, hinqMem])]
  repeat' split
  all_goals simp [cleanupSongTracking, scheduleForRemoval,
    incrementSongCountSkipped, incrementSongCount, resetSongCount,
    addDJToCooldown, addToRecentlyPlayed]

/-- C3 (corrected): after a performance-ended event on the main path
(queue enabled, performer still on the decks, still in the duplicate-free
Waitlist, and not marked for removal-after-song), provided the Waitlist has
at least two members the performer ends up at the back and is no longer at
the head; with fewer than two members the rotation is skipped, so the claim
as stated fails for a singleton Waitlist. -/
theorem endSong_rotation (adminUsers : List String) (s : BotState) (now : Nat)
    (currentDJ currentDJId : String) (rd : RoomData)
    (hen : s.queueEnabled = true)
    (hnodup : s.djQueue.Nodup)
    (hmark : mapHas s.djsToRemoveAfterSong currentDJ = false)
    (hdeck : rd.djs.contains currentDJId = true)
    (hinq : s.djQueue.contains currentDJ = true)
    (hlen : 2 ≤ s.djQueue.length) :
    (handleEndSong adminUsers s now true currentDJ currentDJId rd).1.djQueue.head? ≠
      some currentDJ ∧
    (handleEndSong adminUsers s now true currentDJ currentDJId rd).1.djQueue.getLast? =
      some currentDJ := by
  have hmem : currentDJ ∈ s.djQueue := List.elem_iff.mp hinq
  have hq := handleEndSong_queue adminUsers s now currentDJ currentDJId rd hen
    hmark hdeck hinq
  have hrot : (moveToEndOfQueue (cleanupSongTracking s currentDJ)
      currentDJ).djQueue = qRemove s.djQueue currentDJ ++ [currentDJ] := by
    simp only [moveToEndOfQueue, cleanupSongTracking]
    rw [if_pos]
    exact ⟨hinq, by omega⟩
  rw [hq, hrot]
  constructor
  · have hlen1 : 1 ≤ (qRemove s.djQueue currentDJ).length := by
      rw [length_qRemove_of_mem hmem]
      omega
    cases hrem : qRemove s.djQueue currentDJ with
    | nil => rw [hrem] at hlen1; cases hlen1
    | cons a rest =>
      have ha : a ≠ currentDJ := by
        intro h
        apply not_mem_qRemove_of_nodup hnodup
        rw [hrem, h]
        exact List.mem_cons_self _ _
      simp [ha]
  · exact List.getLast?_concat _

/-- Concrete two-member state for the C3 witness. -/
def rotateState : BotState :=
  { initState with queueEnabled := true, djQueue := ["alice", "bob"] }

def rotateRoom : RoomData :=
  { djs := ["id-alice", "id-bob"]
    users := [{ userid := "id-alice", name := "alice" },
      { userid := "id-bob", name := "bob" }]
    songDjName := some "alice"
    songDjId := some "id-alice" }

/-- Witness for C3 with two members: alice rotates behind bob. -/
theorem endSong_rotation_witness :
    rotateState.djQueue.contains "alice" = true ∧
    (handleEndSong [] rotateState 50000 true "alice" "id-alice"
        rotateRoom).1.djQueue.head? ≠ some "alice" :=
  ⟨rfl,
    (endSong_rotation [] rotateState 50000 "alice" "id-alice" rotateRoom rfl
      (by decide) rfl (by decide) (by decide) (by decide)).1⟩

/-- Concrete singleton state refuting C3 as stated. -/
def soloState : BotState :=
  { initState with queueEnabled := true, djQueue := ["alice"] }

def soloRoom : RoomData :=
  { djs := ["id-alice"]
    users := [{ userid := "id-alice", name := "alice" }]
    songDjName := some "alice"
    songDjId := some "id-alice" }

/-- C3 counterexample: with a singleton Waitlist the moveToEndOfQueue guard
(size greater than one) skips the rotation, so the performer is still at the
Waitlist head after their performance ends. -/
theorem endSong_rotation_cx :
    soloState.queueEnabled = true ∧
    soloState.djQueue.contains "alice" = true ∧
    soloRoom.djs.contains "id-alice" = true ∧
    mapHas soloState.djsToRemoveAfterSong "alice" = false ∧
    (handleEndSong [] soloState 50000 true "alice" "id-alice"
        soloRoom).1.djQueue.head? = some "alice" := by
  refine ⟨rfl, by decide, by decide, rfl, by decide⟩

/-! ### Set lemmas -/

theorem setHas_setAdd (s : List String) (x : String) :
    setHas (setAdd s x) x = true := by
  simp only [setAdd, setHas]
  split
  · assumption
  · exact List.elem_iff.mpr (by simp)

theorem moveToEndOfQueue_enf (s : BotState) (u : String) :
    (moveToEndOfQueue s u).enforceOneSongPerDJ = s.enforceOneSongPerDJ := by
  simp only [moveToEndOfQueue]
  split <;> rfl

theorem moveToEndOfQueue_counts (s : BotState) (u : String) :
    (moveToEndOfQueue s u).djSongCounts = s.djSongCounts := by
  simp only [moveToEndOfQueue]
  split <;> rfl

theorem moveToEndOfQueue_recent (s : BotState) (u : String) :
    (moveToEndOfQueue s u).recentlyPlayedDJs = s.recentlyPlayedDJs := by
  simp only [moveToEndOfQueue]
  split <;> rfl

theorem moveToEndOfQueue_sched (s : BotState) (u : String) :
    (moveToEndOfQueue s u).scheduledForRemoval = s.scheduledForRemoval := by
  simp only [moveToEndOfQueue]
  split <;> rfl

/-- C6 (corrected): in strict mode, a below-threshold ending with at least
one administrator in the room (for an unmarked performer still on decks and
in the Waitlist) is classified moderator-initiated, the turn is counted and
a pending eviction is scheduled, but no cooldown is started --- the
recently-played map is untouched and only the queue publication and one
announcement are emitted. -/
theorem admin_skip_schedules_eviction (adminUsers : List String) (s : BotState)
    (now : Nat) (currentDJ currentDJId : String) (rd : RoomData)
    (hen : s.queueEnabled = true)
    (henf : s.enforceOneSongPerDJ = true)
    (hskip : wasSongSkipped s currentDJ now = true)
    (hadm : 0 < (rd.users.filter (fun u => isAdmin adminUsers u.name)).length)
    (hmark : mapHas s.djsToRemoveAfterSong currentDJ = false)
    (hdeck : rd.djs.contains currentDJId = true)
    (hinq : s.djQueue.contains currentDJ = true) :
    detectSkipType adminUsers (some rd) = "intentional_moderator" ∧
    setHas (handleEndSong adminUsers s now true currentDJ currentDJId
      rd).1.scheduledForRemoval currentDJ = true ∧
    mapGet (handleEndSong adminUsers s now true currentDJ currentDJId
      rd).1.djSongCounts currentDJ =
      some ((mapGet s.djSongCounts currentDJ).getD 0 + 1) ∧
    (handleEndSong adminUsers s now true currentDJ currentDJId
      rd).1.recentlyPlayedDJs = s.recentlyPlayedDJs ∧
    (∃ msg, (handleEndSong adminUsers s now true currentDJ currentDJId rd).2 =
      [updateQueuePublication
        (moveToEndOfQueue (cleanupSongTracking s currentDJ) currentDJ),
       Action.speak msg]) := by
  have hdeckMem : currentDJId ∈ rd.djs := List.elem_iff.mp hdeck
  have hinqMem : currentDJ ∈ s.djQueue := List.elem_iff.mp hinq
  have hskipType : detectSkipType adminUsers (some rd) = "intentional_moderator" := by
    simp only [detectSkipType]
    rw [if_pos hadm]
  have henf2 : (moveToEndOfQueue (cleanupSongTracking s currentDJ)
      currentDJ).enforceOneSongPerDJ = true := by
    rw [moveToEndOfQueue_enf]
    exact henf
  have hmain : handleEndSong adminUsers s now true currentDJ currentDJId rd =
      (scheduleForRemoval
        (incrementSongCountSkipped
          (moveToEndOfQueue (cleanupSongTracking s currentDJ) currentDJ)
          currentDJ false).1 currentDJ,
       [updateQueuePublication
          (moveToEndOfQueue (cleanupSongTracking s currentDJ) currentDJ),
        Action.speak (currentDJ ++
          " song was intentionally skipped by moderator. Moved to end of queue and scheduled for removal at leftmost deck position (counts as their turn). Current rotation: "
          ++ qPrint (scheduleForRemoval
            (incrementSongCountSkipped
              (moveToEndOfQueue (cleanupSongTracking s currentDJ) currentDJ)
              currentDJ false).1 currentDJ).djQueue)]) := by
    simp only [handleEndSong]
    rw [if_neg (by simp [hen])]
    rw [if_neg (by simp [cleanupSongTracking, hmark])]
    rw [if_neg (by simp [hdeckMem])]
    rw [if_neg (by simp [cleanupSongTracking, hinqMem])]
    rw [if_pos hskip, if_pos henf2, if_pos hskipType]
  refine ⟨hskipType, ?_, ?_, ?_, ?_⟩
  · rw [hmain]
    simp only [scheduleForRemoval]
    exact setHas_setAdd _ _
  · rw [hmain]
    simp only [scheduleForRemoval, incrementSongCountSkipped, Bool.false_eq_true,
      if_false]
    rw [moveToEndOfQueue_counts]
    simp only [cleanupSongTracking]
    exact mapGet_mapSet_self _ _ _
  · rw [hmain]
    simp only [scheduleForRemoval, incrementSongCountSkipped, Bool.false_eq_true,
      if_false]
    rw [moveToEndOfQueue_recent]
    rfl
  · rw [hmain]
    exact ⟨_, rfl⟩

/-- Concrete strict-mode skip scenario with an admin in the room. -/
def carolState : BotState :=
  { initState with
    queueEnabled := true
    enforceOneSongPerDJ := true
    djQueue := ["carol", "b", "c", "d", "e", "f"]
    songStartTimes := [("carol", (10000, 30000))] }

def carolRoom : RoomData :=
  { djs := ["id-carol"]
    users := [{ userid := "id-carol", name := "carol" },
      { userid := "id-admin", name := "admin1" }]
    songDjName := some "carol"
    songDjId := some "id-carol" }

/-- Witness for C6: carol's 5-second song (started at 10000, ended at 15000)
with admin1 present schedules her eviction without starting a cooldown. -/
theorem admin_skip_schedules_eviction_witness :
    carolState.enforceOneSongPerDJ = true ∧
    setHas (handleEndSong ["admin1"] carolState 15000 true "carol" "id-carol"
      carolRoom).1.scheduledForRemoval "carol" = true ∧
    (handleEndSong ["admin1"] carolState 15000 true "carol" "id-carol"
      carolRoom).1.recentlyPlayedDJs = [] :=
  ⟨rfl,
    (admin_skip_schedules_eviction ["admin1"] carolState 15000 "carol" "id-carol"
      carolRoom rfl rfl (by decide) (by decide) rfl (by decide) (by decide)).2.1,
    (admin_skip_schedules_eviction ["admin1"] carolState 15000 "carol" "id-carol"
      carolRoom rfl rfl (by decide) (by decide) rfl (by decide) (by decide)).2.2.2.1⟩

/-- C6 counterexample: in the identical scenario the claim asserts a cooldown
is scheduled for carol, but after the handler runs the recently-played map is
still empty, so no cooldown exists (isInCooldown reports false). -/
theorem admin_skip_no_cooldown_cx :
    carolState.enforceOneSongPerDJ = true ∧
    carolState.queueEnabled = true ∧
    wasSongSkipped carolState "carol" 15000 = true ∧
    detectSkipType ["admin1"] (some carolRoom) = "intentional_moderator" ∧
    (handleEndSong ["admin1"] carolState 15000 true "carol" "id-carol"
      carolRoom).1.recentlyPlayedDJs = [] ∧
    (isInCooldown (handleEndSong ["admin1"] carolState 15000 true "carol"
      "id-carol" carolRoom).1 "carol" 15000).2 = none := by
  refine ⟨rfl, rfl, by decide, by decide, by decide, by decide⟩

/-! ### Scheduled-removal set lemmas -/

theorem setHas_false_of_not_mem {s : List String} {n : String} (h : n ∉ s) :
    setHas s n = false := by
  cases hc : s.contains n
  · exact hc
  · exact absurd (List.elem_iff.mp hc) h

theorem setHas_setDel_self (s : List String) (x : String) :
    setHas (setDel s x) x = false := by
  refine setHas_false_of_not_mem ?_
  intro hm
  simp [setDel, List.mem_filter] at hm

theorem setHas_setDel_ne (s : List String) (x n : String) (h : n ≠ x) :
    setHas (setDel s x) n = setHas s n := by
  by_cases hm : n ∈ s
  · have h1 : setHas s n = true := List.elem_iff.mpr hm
    have h2 : setHas (setDel s x) n = true :=
      List.elem_iff.mpr (by simp [setDel, List.mem_filter, hm, h])
    rw [h1, h2]
  · have h2 : setHas (setDel s x) n = false := by
      refine setHas_false_of_not_mem ?_
      intro hmm
      exact hm (List.mem_of_mem_filter hmm)
    rw [h2, setHas_false_of_not_mem hm]

theorem foldl_setDel_preserve_false (ds : List String) :
    ∀ (sched : List String) (x : String), setHas sched x = false →
      setHas (ds.foldl setDel sched) x = false := by
  induction ds with
  | nil => intro sched x h; exact h
  | cons d rest ih =>
    intro sched x h
    simp only [List.foldl_cons]
    apply ih
    by_cases hxd : x = d
    · subst hxd
      exact setHas_setDel_self _ _
    · rw [setHas_setDel_ne _ _ _ hxd]
      exact h

theorem foldl_setDel_mem (ds : List String) :
    ∀ (sched : List String) (n : String), n ∈ ds →
      setHas (ds.foldl setDel sched) n = false := by
  induction ds with
  | nil => intro _ _ h; cases h
  | cons d rest ih =>
    intro sched n h
    simp only [List.foldl_cons]
    cases h with
    | head =>
      exact foldl_setDel_preserve_false rest _ _ (setHas_setDel_self _ _)
    | tail _ h => exact ih _ _ h

/-! ### Removal-loop lemmas (the anchor Executing transition) -/

/-- The playing DJ is never placed on the eviction list. -/
theorem removalLoop_playing_not_mem (playing : String) (names : List String) :
    ∀ sched, playing ∉ (removalLoop playing sched names).1 := by
  induction names with
  | nil =>
    intro sched
    simp [removalLoop]
  | cons m rest ih =>
    intro sched
    simp only [removalLoop]
    split
    · rename_i hc
      intro hm
      cases hm with
      | head => exact hc.2 rfl
      | tail _ hm => exact ih sched hm
    split
    · exact ih (setDel sched m)
    · exact ih sched

/-- Every scheduled occupant other than the playing DJ is collected. -/
theorem removalLoop_collects (playing : String) (names : List String) :
    ∀ sched n, n ∈ names → setHas sched n = true → n ≠ playing →
      n ∈ (removalLoop playing sched names).1 := by
  induction names with
  | nil =>
    intro _ _ h _ _
    cases h
  | cons m rest ih =>
    intro sched n hmem hsched hne
    simp only [removalLoop]
    split
    · rename_i hc
      cases hmem with
      | head => exact List.mem_cons_self _ _
      | tail _ hm => exact List.mem_cons_of_mem _ (ih sched n hm hsched hne)
    split
    · rename_i hc1 hc2
      cases hmem with
      | head => exact absurd hc2.1 hne
      | tail _ hm =>
        refine ih (setDel sched m) n hm ?_ hne
        rw [hc2.1, setHas_setDel_ne _ _ _ hne]
        exact hsched
    · rename_i hc1 hc2
      cases hmem with
      | head =>
        have hmp : m = playing := by
          by_contra hmp
          exact hc1 ⟨hsched, hmp⟩
        exact absurd ⟨hmp, hsched⟩ hc2
      | tail _ hm => exact ih sched n hm hsched hne

/-- The loop never re-adds the playing DJ once its flag is down. -/
theorem removalLoop_keeps_playing_clear (playing : String) (names : List String) :
    ∀ sched, setHas sched playing = false →
      setHas (removalLoop playing sched names).2 playing = false := by
  induction names with
  | nil =>
    intro sched h
    exact h
  | cons m rest ih =>
    intro sched h
    simp only [removalLoop]
    split
    · exact ih sched h
    split
    · rename_i hc1 hc2
      refine ih (setDel sched m) ?_
      by_cases hpm : playing = m
      · subst hpm
        exact setHas_setDel_self _ _
      · rw [setHas_setDel_ne _ _ _ hpm]
        exact h
    · exact ih sched h

/-- The playing DJ at the anchor has its own flag cleared in place. -/
theorem removalLoop_clears_playing (playing : String) (names : List String) :
    ∀ sched, playing ∈ names →
      setHas (removalLoop playing sched names).2 playing = false := by
  induction names with
  | nil =>
    intro _ h
    cases h
  | cons m rest ih =>
    intro sched hmem
    simp only [removalLoop]
    split
    · rename_i hc
      cases hmem with
      | head => exact absurd rfl hc.2
      | tail _ hm => exact ih sched hm
    split
    · rename_i hc1 hc2
      rw [hc2.1]
      exact removalLoop_keeps_playing_clear playing rest _
        (setHas_setDel_self _ _)
    · rename_i hc1 hc2
      cases hmem with
      | head =>
        have hs : setHas sched playing = false := by
          cases hh : setHas sched playing
          · rfl
          · exact absurd ⟨rfl, hh⟩ hc2
        exact removalLoop_keeps_playing_clear playing rest sched hs
      | tail _ hm => exact ih sched hm

/-- The natural-ending strict path of handleEndSong, fully reduced. -/
theorem handleEndSong_natural (adminUsers : List String) (s : BotState)
    (now : Nat) (currentDJ currentDJId : String) (rd : RoomData)
    (hen : s.queueEnabled = true)
    (henf : s.enforceOneSongPerDJ = true)
    (hnat : wasSongSkipped s currentDJ now = false)
    (hmark : mapHas s.djsToRemoveAfterSong currentDJ = false)
    (hdeck : rd.djs.contains currentDJId = true)
    (hinq : s.djQueue.contains currentDJ = true) :
    handleEndSong adminUsers s now true currentDJ currentDJId rd =
      (addToRecentlyPlayed
        (scheduleForRemoval
          (resetSongCount
            (incrementSongCount
              (moveToEndOfQueue (cleanupSongTracking s currentDJ) currentDJ)
              currentDJ).1 currentDJ)
          currentDJ)
        currentDJ now,
       [updateQueuePublication
          (moveToEndOfQueue (cleanupSongTracking s currentDJ) currentDJ),
        Action.speak ("@" ++ currentDJ ++
          " has played their song (queue has 6+ people). Moved to end of queue and scheduled for removal at leftmost deck position."),
        Action.scheduleCooldownNotice currentDJ]) := by
  have hdeckMem : currentDJId ∈ rd.djs := List.elem_iff.mp hdeck
  have hinqMem : currentDJ ∈ s.djQueue := List.elem_iff.mp hinq
  have henf2 : (moveToEndOfQueue (cleanupSongTracking s currentDJ)
      currentDJ).enforceOneSongPerDJ = true := by
    rw [moveToEndOfQueue_enf]
    exact henf
  simp only [handleEndSong]
  rw [if_neg (by simp [hen])]
  rw [if_neg (by simp [cleanupSongTracking, hmark])]
  rw [if_neg (by simp [hdeckMem])]
  rw [if_neg (by simp [cleanupSongTracking, hinqMem])]
  have hge : (incrementSongCount
      (moveToEndOfQueue (cleanupSongTracking s currentDJ) currentDJ)
      currentDJ).2 ≥ 1 := by
    simp only [incrementSongCount]
    omega
  rw [if_neg (by simp [hnat]), if_pos henf2, if_pos hge]
  simp [addDJToCooldown]

/-- C1 (corrected): in strict mode, when a performance ends naturally for a
performer who is in the Waitlist, still on the decks, and not already marked
for removal-after-song by an earlier leave or admin-removal command, the
turn count is incremented, reaches the one-turn limit and is reset to zero,
a cooldown stamped at the current instant begins (1 minute via DJ_WAIT_TIME
in isInCooldown), and a pending eviction is scheduled while the handler
emits no eviction action (only the publication, one announcement and the
cooldown timer).  Separately, whenever the Executing transition fires (a
performance playing at deck index 0, strict mode, non-empty queue array,
anchor occupant among the deck names), every scheduled occupant other than
the anchor performer lands on the eviction list and has its flag cleared,
while the anchor performer is never evicted and its own flag is cleared in
place. -/
theorem strict_one_turn (adminUsers : List String) (s : BotState) (now : Nat)
    (currentDJ currentDJId : String) (rd : RoomData)
    (hen : s.queueEnabled = true)
    (henf : s.enforceOneSongPerDJ = true)
    (hnat : wasSongSkipped s currentDJ now = false)
    (hmark : mapHas s.djsToRemoveAfterSong currentDJ = false)
    (hdeck : rd.djs.contains currentDJId = true)
    (hinq : s.djQueue.contains currentDJ = true) :
    (mapGet (handleEndSong adminUsers s now true currentDJ currentDJId
        rd).1.djSongCounts currentDJ = some 0 ∧
      mapGet (handleEndSong adminUsers s now true currentDJ currentDJId
        rd).1.recentlyPlayedDJs currentDJ = some now ∧
      setHas (handleEndSong adminUsers s now true currentDJ currentDJId
        rd).1.scheduledForRemoval currentDJ = true ∧
      (handleEndSong adminUsers s now true currentDJ currentDJId rd).2 =
        [updateQueuePublication
          (moveToEndOfQueue (cleanupSongTracking s currentDJ) currentDJ),
         Action.speak ("@" ++ currentDJ ++
          " has played their song (queue has 6+ people). Moved to end of queue and scheduled for removal at leftmost deck position."),
         Action.scheduleCooldownNotice currentDJ]) ∧
    (∀ (t : BotState) (names queueArray : List String) (playing : String)
        (rd2 : RoomData),
      t.enforceOneSongPerDJ = true →
      queueArray.length ≠ 0 →
      findPlayingPos rd2.users playing rd2.djs 0 = some 0 →
      playing ∈ names →
      ((∀ n ∈ names, setHas t.scheduledForRemoval n = true → n ≠ playing →
          n ∈ (getDJsToRemoveFromDecks t names queueArray (some playing) rd2).2) ∧
        playing ∉ (getDJsToRemoveFromDecks t names queueArray (some playing)
          rd2).2 ∧
        setHas (getDJsToRemoveFromDecks t names queueArray (some playing)
          rd2).1.scheduledForRemoval playing = false ∧
        (∀ n ∈ (getDJsToRemoveFromDecks t names queueArray (some playing) rd2).2,
          setHas (getDJsToRemoveFromDecks t names queueArray (some playing)
            rd2).1.scheduledForRemoval n = false))) := by
  constructor
  · have hmain := handleEndSong_natural adminUsers s now currentDJ currentDJId rd
      hen henf hnat hmark hdeck hinq
    refine ⟨?_, ?_, ?_, ?_⟩
    · rw [hmain]
      simp only [addToRecentlyPlayed, scheduleForRemoval, resetSongCount]
      exact mapGet_mapSet_self _ _ _
    · rw [hmain]
      simp only [addToRecentlyPlayed, scheduleForRemoval, resetSongCount,
        incrementSongCount, moveToEndOfQueue_recent]
      exact mapGet_mapSet_self _ _ _
    · rw [hmain]
      simp only [addToRecentlyPlayed, scheduleForRemoval, resetSongCount]
      exact setHas_setAdd _ _
    · rw [hmain]
  · intro t names queueArray playing rd2 htenf hqa hpos hpmem
    have hshould : shouldRemoveDJsBasedOnCurrentSong t (some playing) queueArray
        rd2 = true := by
      simp only [shouldRemoveDJsBasedOnCurrentSong]
      rw [if_neg (by simp [htenf, hqa])]
      simp [hpos]
    have hred1 : (getDJsToRemoveFromDecks t names queueArray (some playing)
        rd2).2 = (removalLoop playing t.scheduledForRemoval names).1 := by
      simp only [getDJsToRemoveFromDecks]
      rw [if_neg (by simp [htenf]), if_neg (by simp [hshould])]
    have hred2 : (getDJsToRemoveFromDecks t names queueArray (some playing)
        rd2).1.scheduledForRemoval =
        (removalLoop playing t.scheduledForRemoval names).1.foldl setDel
          (removalLoop playing t.scheduledForRemoval names).2 := by
      simp only [getDJsToRemoveFromDecks]
      rw [if_neg (by simp [htenf]), if_neg (by simp [hshould])]
    refine ⟨?_, ?_, ?_, ?_⟩
    · intro n hn hsched hne
      rw [hred1]
      exact removalLoop_collects playing names t.scheduledForRemoval n hn hsched
        hne
    · rw [hred1]
      exact removalLoop_playing_not_mem playing names t.scheduledForRemoval
    · rw [hred2]
      exact foldl_setDel_preserve_false _ _ _
        (removalLoop_clears_playing playing names t.scheduledForRemoval hpmem)
    · intro n hn
      rw [hred1] at hn
      rw [hred2]
      exact foldl_setDel_mem _ _ _ hn

/-- Concrete natural-turn scenario: frank plays a full song in strict mode. -/
def frankState : BotState :=
  { initState with
    queueEnabled := true
    enforceOneSongPerDJ := true
    djQueue := ["frank", "b", "c", "d", "e", "f"]
    songStartTimes := [("frank", (10000, 30000))] }

def frankRoom : RoomData :=
  { djs := ["id-frank", "id-b"]
    users := [{ userid := "id-frank", name := "frank" },
      { userid := "id-b", name := "b" }]
    songDjName := some "frank"
    songDjId := some "id-frank" }

/-- Concrete Executing-transition scenario: b is playing at deck index 0,
both b and frank carry pending-eviction flags. -/
def anchorState : BotState :=
  { initState with
    queueEnabled := true
    enforceOneSongPerDJ := true
    djQueue := ["b", "c", "d", "e", "f", "frank"]
    scheduledForRemoval := ["frank", "b"] }

def anchorRoom : RoomData :=
  { djs := ["id-b", "id-frank"]
    users := [{ userid := "id-b", name := "b" },
      { userid := "id-frank", name := "frank" }]
    songDjName := some "b"
    songDjId := some "id-b" }

/-- Witness for C1: after frank's natural song his count is reset, his
cooldown is stamped, his eviction is pending; at the next anchor start with
b playing, frank is evicted and b's own flag is cleared without eviction. -/
theorem strict_one_turn_witness :
    frankState.enforceOneSongPerDJ = true ∧
    mapGet (handleEndSong [] frankState 45000 true "frank" "id-frank"
      frankRoom).1.recentlyPlayedDJs "frank" = some 45000 ∧
    ("frank" ∈ (getDJsToRemoveFromDecks anchorState ["b", "frank"] ["b"]
        (some "b") anchorRoom).2 ∧
      "b" ∉ (getDJsToRemoveFromDecks anchorState ["b", "frank"] ["b"]
        (some "b") anchorRoom).2) :=
  ⟨rfl,
    (strict_one_turn [] frankState 45000 "frank" "id-frank" frankRoom rfl rfl
      (by decide) rfl (by decide) (by decide)).1.2.1,
    ((strict_one_turn [] frankState 45000 "frank" "id-frank" frankRoom rfl rfl
        (by decide) rfl (by decide) (by decide)).2 anchorState ["b", "frank"]
        ["b"] "b" anchorRoom rfl (by decide) (by decide) (by decide)).1 "frank"
      (by decide) (by decide) (by decide),
    ((strict_one_turn [] frankState 45000 "frank" "id-frank" frankRoom rfl rfl
        (by decide) rfl (by decide) (by decide)).2 anchorState ["b", "frank"]
        ["b"] "b" anchorRoom rfl (by decide) (by decide) (by decide)).2.1⟩

/-- Concrete state where the performer is both in the Waitlist and marked
for removal-after-song. -/
def markedState : BotState :=
  { initState with
    queueEnabled := true
    enforceOneSongPerDJ := true
    djQueue := ["alice", "b", "c", "d", "e", "f"]
    djsToRemoveAfterSong :=
      [("alice", { userId := "id-alice", reason := "admin_removal" })] }

def markedRoom : RoomData :=
  { djs := ["id-alice"]
    users := [{ userid := "id-alice", name := "alice" }]
    songDjName := some "alice"
    songDjId := some "id-alice" }

/-- C1 counterexample: a performer who is in the Waitlist, on the decks, in
strict mode and ends naturally, but was earlier marked for removal-after-song
(possible after a leave-queue command followed by a rejoin), takes the
marked-removal path: the turn count is not incremented and no cooldown is
started, contradicting the claim as stated. -/
theorem strict_one_turn_marked_cx :
    markedState.enforceOneSongPerDJ = true ∧
    markedState.queueEnabled = true ∧
    markedState.djQueue.contains "alice" = true ∧
    markedRoom.djs.contains "id-alice" = true ∧
    wasSongSkipped markedState "alice" 99999 = false ∧
    (handleEndSong [] markedState 99999 true "alice" "id-alice"
      markedRoom).1.recentlyPlayedDJs = [] ∧
    mapGet (handleEndSong [] markedState 99999 true "alice" "id-alice"
      markedRoom).1.djSongCounts "alice" = none := by
  refine ⟨rfl, rfl, by decide, by decide, rfl, by decide, by decide⟩

end Deepcut
